import Mathlib

/-!
# Me-TV frontend manager: a shallow embedding

A shallow embedding of `src/frontend_manager.rs` from the Me-TV repository,
together with theorems checking the natural-language specification of the
adapter/frontend hotplug discovery core against the code.

Modelling conventions:
* Rust `u16` values are `Nat`s; where the code can overflow (the `+= 1` on
  the frontend / adapter counters) the increment is taken modulo `2^16`,
  which is the release-build wrapping semantics.
* The filesystem is a pure map from path strings to an optional file kind;
  `none` models `fs::metadata` returning `Err` (path absent), `some k`
  models `Ok` with file type `k`.
* The downstream mpsc channel is modelled by a boolean `alive` saying
  whether the consumer's receiver still exists; `send` succeeds iff
  `alive = true`, and `.unwrap()` on a failed send is a panic.
* Loops are given explicit fuel; running out of fuel yields the distinct
  outcome `diverge`, so non-termination is observable.
* Side effects are collected into an event trace: successful inbound
  receives, sleeps, and successful downstream sends, in program order.
  `println!` output of `run` is collected as a separate log list.
-/

namespace MeTV

/-- The identity of a specific frontend: `FrontendId` from the source,
with both `u16` fields embedded as `Nat`. -/
structure FrontendId where
  adapter : Nat
  frontend : Nat
deriving DecidableEq, Repr

/-- A tuning of a frontend: `TuningId` from the source. -/
structure TuningId where
  frontend : FrontendId
  channel : String
deriving DecidableEq, Repr

/-- Outbound messages sent by the frontend manager: `Message` from the source. -/
inductive Message where
  | AdapterDisappeared (id : Nat)
  | FrontendAppeared (fei : FrontendId)
deriving DecidableEq, Repr

/-- Inbound hotplug messages from the inotify daemon (`IN_Message`). -/
inductive INMessage where
  | AdapterAppeared (id : Nat)
  | AdapterDisappeared (id : Nat)
deriving DecidableEq, Repr

/-- The modulus of Rust's `u16`. -/
def U16_MOD : Nat := 65536

/-- The path in the filesystem to the DVB related special files
(`DVB_BASE_PATH` from the source). -/
def DVB_BASE_PATH : String := "/dev/dvb"

/-- `adapter_path` from the source:
`DVB_BASE_PATH.to_owned() + "/adapter" + &id.to_string()`. -/
def adapter_path (id : Nat) : String :=
  DVB_BASE_PATH ++ "/adapter" ++ Nat.repr id

/-- `frontend_path` from the source:
`adapter_path(fei.adapter) + "/frontend" + &fei.frontend.to_string()`. -/
def frontend_path (fei : FrontendId) : String :=
  adapter_path fei.adapter ++ "/frontend" ++ Nat.repr fei.frontend

/-- `demux_path` from the source. -/
def demux_path (fei : FrontendId) : String :=
  adapter_path fei.adapter ++ "/demux" ++ Nat.repr fei.frontend

/-- `dvr_path` from the source. -/
def dvr_path (fei : FrontendId) : String :=
  adapter_path fei.adapter ++ "/dvr" ++ Nat.repr fei.frontend

/-! ## Decimal representation: auxiliary theory

`Nat.repr` (the embedding of Rust's `u16::to_string`, both print decimal
with no leading zeros) is shown injective, and its characters are shown to
be decimal digits, hence never `'/'`.  This underpins the injectivity of
the path resolver functions. -/

/-- Structural-recursion presentation of the decimal digit list of `n`,
most significant digit first. -/
def decDigits (n : Nat) : List Char :=
  if _h : n < 10 then [Nat.digitChar n]
  else decDigits (n / 10) ++ [Nat.digitChar (n % 10)]
decreasing_by exact Nat.div_lt_self (by omega) (by omega)

theorem decDigits_lt (n : Nat) (h : n < 10) : decDigits n = [Nat.digitChar n] := by
  rw [decDigits]
  simp [h]

theorem decDigits_ge (n : Nat) (h : ¬ n < 10) :
    decDigits n = decDigits (n / 10) ++ [Nat.digitChar (n % 10)] := by
  rw [decDigits]
  simp [h]

theorem toDigitsCore_eq_decDigits :
    ∀ (fuel n : Nat) (ds : List Char), n < fuel →
      Nat.toDigitsCore 10 fuel n ds = decDigits n ++ ds := by
  intro fuel
  induction fuel with
  | zero => intro n ds h; omega
  | succ fuel ih =>
    intro n ds h
    by_cases h10 : n < 10
    · have hdiv : n / 10 = 0 := Nat.div_eq_of_lt h10
      have hmod : n % 10 = n := Nat.mod_eq_of_lt h10
      simp [Nat.toDigitsCore, hdiv, hmod, decDigits_lt n h10]
    · have hdiv : n / 10 ≠ 0 := by
        intro hc
        exact h10 (by omega)
      have hlt : n / 10 < fuel := by
        have : n / 10 < n := Nat.div_lt_self (by omega) (by omega)
        omega
      simp only [Nat.toDigitsCore, hdiv, if_false]
      rw [ih (n / 10) (Nat.digitChar (n % 10) :: ds) hlt, decDigits_ge n h10,
        List.append_assoc, List.singleton_append]

theorem repr_eq_decDigits (n : Nat) : (Nat.repr n).data = decDigits n := by
  show (List.asString (Nat.toDigitsCore 10 (n + 1) n [])).data = decDigits n
  rw [toDigitsCore_eq_decDigits (n + 1) n [] (Nat.lt_succ_self n)]
  simp [List.asString]

/-- Evaluation of a digit list back to a number, with an accumulator. -/
def parseDec (acc : Nat) (l : List Char) : Nat :=
  l.foldl (fun a c => 10 * a + (c.toNat - 48)) acc

theorem parseDec_append (acc : Nat) (l1 l2 : List Char) :
    parseDec acc (l1 ++ l2) = parseDec (parseDec acc l1) l2 :=
  List.foldl_append ..

theorem digitChar_toNat (d : Nat) (h : d < 10) : (Nat.digitChar d).toNat - 48 = d := by
  interval_cases d <;> decide

theorem parseDec_decDigits (n : Nat) :
    ∀ acc, parseDec acc (decDigits n) = acc * 10 ^ (decDigits n).length + n := by
  induction n using Nat.strong_induction_on with
  | _ n ih =>
    intro acc
    by_cases h10 : n < 10
    · rw [decDigits_lt n h10]
      simp [parseDec, digitChar_toNat n h10]
      ring
    · rw [decDigits_ge n h10, parseDec_append]
      have hrec : n / 10 < n := Nat.div_lt_self (by omega) (by omega)
      rw [ih (n / 10) hrec acc]
      simp [parseDec, digitChar_toNat (n % 10) (Nat.mod_lt n (by omega))]
      rw [pow_succ, ← Nat.mul_assoc]
      omega

theorem decDigits_injective : Function.Injective decDigits := by
  intro m n h
  have hm := parseDec_decDigits m 0
  have hn := parseDec_decDigits n 0
  rw [h] at hm
  simp at hm hn
  omega

theorem repr_injective : Function.Injective Nat.repr := by
  intro m n h
  apply decDigits_injective
  rw [← repr_eq_decDigits, ← repr_eq_decDigits, h]

theorem decDigits_digits (n : Nat) :
    ∀ c ∈ decDigits n, 48 ≤ c.toNat ∧ c.toNat ≤ 57 := by
  induction n using Nat.strong_induction_on with
  | _ n ih =>
    by_cases h10 : n < 10
    · rw [decDigits_lt n h10]
      intro c hc
      rw [List.mem_singleton] at hc
      subst hc
      interval_cases n <;> decide
    · rw [decDigits_ge n h10]
      intro c hc
      rw [List.mem_append] at hc
      rcases hc with hc | hc
      · exact ih (n / 10) (Nat.div_lt_self (by omega) (by omega)) c hc
      · rw [List.mem_singleton] at hc
        subst hc
        have hm : n % 10 < 10 := Nat.mod_lt n (by omega)
        interval_cases h : n % 10 <;> simp_all <;> decide

theorem slash_not_mem_repr (n : Nat) : '/' ∉ (Nat.repr n).data := by
  rw [repr_eq_decDigits]
  intro hmem
  have := decDigits_digits n '/' hmem
  revert this
  decide

theorem repr_data_injective {m n : Nat} (h : (Nat.repr m).data = (Nat.repr n).data) :
    m = n := by
  apply decDigits_injective
  rw [← repr_eq_decDigits, ← repr_eq_decDigits, h]

/-- A list with a unique occurrence of a separator splits unambiguously. -/
theorem sep_unique :
    ∀ (xs1 xs2 ys1 ys2 : List Char), '/' ∉ xs1 → '/' ∉ xs2 →
      xs1 ++ '/' :: ys1 = xs2 ++ '/' :: ys2 → xs1 = xs2 ∧ ys1 = ys2 := by
  intro xs1
  induction xs1 with
  | nil =>
    intro xs2 ys1 ys2 h1 h2 heq
    cases xs2 with
    | nil => simpa using heq
    | cons c cs =>
      rw [List.nil_append, List.cons_append, List.cons_eq_cons] at heq
      exact absurd (heq.1 ▸ List.mem_cons_self c cs) h2
  | cons c cs ih =>
    intro xs2 ys1 ys2 h1 h2 heq
    cases xs2 with
    | nil =>
      rw [List.nil_append, List.cons_append, List.cons_eq_cons] at heq
      exact absurd (heq.1 ▸ List.mem_cons_self c cs) h1
    | cons d ds =>
      rw [List.cons_append, List.cons_append, List.cons_eq_cons] at heq
      have hcs : '/' ∉ cs := fun hc => h1 (List.mem_cons_of_mem c hc)
      have hds : '/' ∉ ds := fun hd => h2 (List.mem_cons_of_mem d hd)
      have := ih ds ys1 ys2 hcs hds heq.2
      exact ⟨by rw [heq.1, this.1], this.2⟩

/-- Two decimal components around a separator-led literal determine each other. -/
theorem resolver_pair_inj (mid : List Char) (a1 f1 a2 f2 : Nat)
    (h : (Nat.repr a1).data ++ '/' :: (mid ++ (Nat.repr f1).data) =
         (Nat.repr a2).data ++ '/' :: (mid ++ (Nat.repr f2).data)) :
    a1 = a2 ∧ f1 = f2 := by
  have hs := sep_unique _ _ _ _ (slash_not_mem_repr a1) (slash_not_mem_repr a2) h
  refine ⟨repr_data_injective hs.1, repr_data_injective ?_⟩
  exact List.append_cancel_left hs.2

theorem adapter_path_injective {a1 a2 : Nat} (h : adapter_path a1 = adapter_path a2) :
    a1 = a2 := by
  have hd := congrArg String.data h
  simp only [adapter_path, DVB_BASE_PATH, String.data_append, List.append_assoc] at hd
  exact repr_data_injective (List.append_cancel_left (List.append_cancel_left hd))

theorem frontend_path_injective {x y : FrontendId}
    (h : frontend_path x = frontend_path y) : x = y := by
  have hd := congrArg String.data h
  simp only [frontend_path, adapter_path, DVB_BASE_PATH, String.data_append,
    List.append_assoc] at hd
  have hd2 := List.append_cancel_left (List.append_cancel_left hd)
  have := resolver_pair_inj ['f', 'r', 'o', 'n', 't', 'e', 'n', 'd']
    _ _ _ _ hd2
  cases x; cases y
  simp only [FrontendId.mk.injEq]
  exact this

theorem demux_path_injective {x y : FrontendId}
    (h : demux_path x = demux_path y) : x = y := by
  have hd := congrArg String.data h
  simp only [demux_path, adapter_path, DVB_BASE_PATH, String.data_append,
    List.append_assoc] at hd
  have hd2 := List.append_cancel_left (List.append_cancel_left hd)
  have := resolver_pair_inj ['d', 'e', 'm', 'u', 'x'] _ _ _ _ hd2
  cases x; cases y
  simp only [FrontendId.mk.injEq]
  exact this

theorem dvr_path_injective {x y : FrontendId}
    (h : dvr_path x = dvr_path y) : x = y := by
  have hd := congrArg String.data h
  simp only [dvr_path, adapter_path, DVB_BASE_PATH, String.data_append,
    List.append_assoc] at hd
  have hd2 := List.append_cancel_left (List.append_cancel_left hd)
  have := resolver_pair_inj ['d', 'v', 'r'] _ _ _ _ hd2
  cases x; cases y
  simp only [FrontendId.mk.injEq]
  exact this

/-! ## The filesystem, channel and effect model -/

/-- The file type reported by a successful `fs::metadata` call. -/
inductive FileKind where
  | charDevice
  | directory
  | other
deriving DecidableEq, Repr

/-- A filesystem state: `fs p = none` models `fs::metadata(p)` returning
`Err`, `fs p = some k` models `Ok` with file type `k`. -/
def FS : Type := String → Option FileKind

/-- Observable effects of the frontend manager thread, in program order:
a successful receive from the inbound channel, a sleep of that many
seconds, and a successful send on the downstream channel. -/
inductive Ev where
  | recv (m : INMessage)
  | sleep (secs : Nat)
  | send (m : Message)
deriving DecidableEq, Repr

/-- Outcome of running a fragment of the thread: `diverge` means the fuel
ran out (the corresponding loop does not terminate within that many
iterations), `panic` means a `.unwrap()` fired on a failed downstream
send, and `ok evs` is normal completion with effect trace `evs`. -/
inductive Res (α : Type) where
  | diverge : Res α
  | panic : Res α
  | ok : α → Res α
deriving DecidableEq, Repr

/-- `to_cw.send(m).unwrap()`: `send` on an mpsc channel succeeds exactly
when the consumer's `Receiver` is still alive; `.unwrap()` on the `Err`
is a panic. -/
def sendCW (alive : Bool) (m : Message) : Res (List Ev) :=
  if alive then .ok [.send m] else .panic

/-- The loop of `add_frontends` from the source, started at frontend
counter value `f`.  Each iteration queries `fs::metadata(frontend_path)`;
`Err` breaks the loop, a character device is sent downstream, and the
`u16` counter is incremented with wrap-around. -/
def add_frontends_loop (fs : FS) (alive : Bool) (id : Nat) :
    Nat → Nat → Res (List Ev)
  | _, 0 => .diverge
  | f, fuel + 1 =>
    match fs (frontend_path ⟨id, f⟩) with
    | none => .ok []
    | some t =>
      if t = FileKind.charDevice then
        match sendCW alive (.FrontendAppeared ⟨id, f⟩) with
        | .diverge => .diverge
        | .panic => .panic
        | .ok evs =>
          match add_frontends_loop fs alive id ((f + 1) % U16_MOD) fuel with
          | .diverge => .diverge
          | .panic => .panic
          | .ok rest => .ok (evs ++ rest)
      else
        add_frontends_loop fs alive id ((f + 1) % U16_MOD) fuel

/-- `add_frontends` from the source: enumerate frontends of adapter `id`
starting at frontend 0. -/
def add_frontends (fs : FS) (alive : Bool) (id : Nat) (fuel : Nat) :
    Res (List Ev) :=
  add_frontends_loop fs alive id 0 fuel

/-- The loop of `search_and_add_adaptors`, started at adapter counter
value `a`: while `fs::metadata(adapter_path)` is `Ok`, run
`add_frontends` and increment the counter (with `u16` wrap-around);
break at the first `Err`. -/
def search_loop (fs : FS) (alive : Bool) (fuelF : Nat) :
    Nat → Nat → Res (List Ev)
  | _, 0 => .diverge
  | a, fuel + 1 =>
    match fs (adapter_path a) with
    | none => .ok []
    | some _ =>
      match add_frontends fs alive a fuelF with
      | .diverge => .diverge
      | .panic => .panic
      | .ok evs =>
        match search_loop fs alive fuelF ((a + 1) % U16_MOD) fuel with
        | .diverge => .diverge
        | .panic => .panic
        | .ok rest => .ok (evs ++ rest)

/-- `search_and_add_adaptors` from the source: if `fs::metadata` on
`DVB_BASE_PATH` is `Ok`, scan adapter indices from 0. -/
def search_and_add_adaptors (fs : FS) (alive : Bool) (fuelF fuelA : Nat) :
    Res (List Ev) :=
  match fs DVB_BASE_PATH with
  | none => .ok []
  | some _ => search_loop fs alive fuelF 0 fuelA

/-- The body of the `Ok` arm of the receive in `run`: an
`AdapterAppeared` sleeps one second and then enumerates, an
`AdapterDisappeared` is forwarded downstream unchanged. -/
def handle_message (fs : FS) (alive : Bool) (fuelF : Nat) :
    INMessage → Res (List Ev)
  | .AdapterAppeared id =>
    match add_frontends fs alive id fuelF with
    | .diverge => .diverge
    | .panic => .panic
    | .ok evs => .ok (Ev.sleep 1 :: evs)
  | .AdapterDisappeared id => sendCW alive (.AdapterDisappeared id)

/-- One `println!` line of `run`. -/
def DROP_LOG : String :=
  "Frontend Manager got an Err, so inotify end of channel has dropped.."

/-- The final `println!` line of `run`. -/
def TERM_LOG : String := "Frontend Manager terminated."

/-- The receive loop of `run`.  The inbound channel is modelled by the
list of messages received before the sender is dropped; once the list is
exhausted, `recv` returns `Err` and the loop breaks, logging
`DROP_LOG`.  The second component collects `println!` output. -/
def run_loop (fs : FS) (alive : Bool) (fuelF : Nat) :
    List INMessage → Res (List Ev) × List String
  | [] => (.ok [], [DROP_LOG])
  | m :: ms =>
    match handle_message fs alive fuelF m with
    | .diverge => (.diverge, [])
    | .panic => (.panic, [])
    | .ok evs =>
      match run_loop fs alive fuelF ms with
      | (.diverge, logs) => (.diverge, logs)
      | (.panic, logs) => (.panic, logs)
      | (.ok rest, logs) => (.ok (Ev.recv m :: (evs ++ rest)), logs)

/-- `run` from the source: the startup scan, then the receive loop, then
the final `println!` (reached only when the loop breaks normally). -/
def run (fs : FS) (alive : Bool) (fuelF fuelA : Nat) (inbox : List INMessage) :
    Res (List Ev) × List String :=
  match search_and_add_adaptors fs alive fuelF fuelA with
  | .diverge => (.diverge, [])
  | .panic => (.panic, [])
  | .ok evs =>
    match run_loop fs alive fuelF inbox with
    | (.diverge, logs) => (.diverge, logs)
    | (.panic, logs) => (.panic, logs)
    | (.ok rest, logs) => (.ok (evs ++ rest), logs ++ [TERM_LOG])

/-- The downstream messages actually delivered in a trace, in order. -/
def sent (evs : List Ev) : List Message :=
  evs.filterMap fun e =>
    match e with
    | .send m => some m
    | _ => none

/-! ## Characterization of the enumerator loop -/

/-- If the frontend paths of adapter `id` all exist below index `k` and
the one at `k` is absent, the loop started at `s ≤ k` with enough fuel
terminates normally and sends exactly the character-device indices of
`s .. k-1`, in increasing order. -/
theorem add_frontends_loop_spec (fs : FS) (id k : Nat) (hk : k < U16_MOD)
    (habs : fs (frontend_path ⟨id, k⟩) = none) :
    ∀ (fuel s : Nat), s ≤ k → k - s < fuel →
      (∀ i, s ≤ i → i < k → (fs (frontend_path ⟨id, i⟩)).isSome) →
      add_frontends_loop fs true id s fuel =
        .ok (((List.range' s (k - s)).filter
            (fun i => decide (fs (frontend_path ⟨id, i⟩) = some FileKind.charDevice))).map
          (fun i => Ev.send (.FrontendAppeared ⟨id, i⟩))) := by
  intro fuel
  induction fuel with
  | zero => intro s _ hfuel _; omega
  | succ fuel ih =>
    intro s hsk hfuel hall
    rcases Nat.lt_or_eq_of_le hsk with hlt | heq
    · obtain ⟨t, ht⟩ := Option.isSome_iff_exists.mp (hall s le_rfl hlt)
      have hmod : (s + 1) % U16_MOD = s + 1 := Nat.mod_eq_of_lt (by omega)
      have hrange : k - s = (k - (s + 1)) + 1 := by omega
      have hih := ih (s + 1) (by omega) (by omega)
        (fun i hi1 hi2 => hall i (by omega) hi2)
      rw [hrange, List.range'_succ]
      by_cases hc : t = FileKind.charDevice
      · subst hc
        simp only [add_frontends_loop, ht, if_pos rfl, sendCW, hmod, hih,
          List.filter_cons, ht, decide_eq_true_eq, if_pos rfl,
          List.map_cons, List.singleton_append]
        simp
      · simp only [add_frontends_loop, ht, if_neg hc, hmod, hih,
          List.filter_cons, ht, decide_eq_true_eq]
        have hne : ¬ (some t = some FileKind.charDevice) := by
          simp [hc]
        simp [hne]
    · subst heq
      simp [add_frontends_loop, habs, Nat.sub_self]

/-- Every event emitted by the enumerator loop is a send of a
`FrontendAppeared` for a path that exists as a character device on the
given adapter. -/
theorem add_frontends_loop_char_only (fs : FS) (alive : Bool) (id : Nat) :
    ∀ (fuel f : Nat) (evs : List Ev),
      add_frontends_loop fs alive id f fuel = .ok evs →
      ∀ e ∈ evs, ∃ g, e = Ev.send (.FrontendAppeared ⟨id, g⟩) ∧
        fs (frontend_path ⟨id, g⟩) = some FileKind.charDevice := by
  intro fuel
  induction fuel with
  | zero => intro f evs h; simp [add_frontends_loop] at h
  | succ fuel ih =>
    intro f evs h
    cases hfs : fs (frontend_path ⟨id, f⟩) with
    | none =>
      simp only [add_frontends_loop, hfs] at h
      cases h
      simp
    | some t =>
      simp only [add_frontends_loop, hfs] at h
      by_cases hc : t = FileKind.charDevice
      · subst hc
        rw [if_pos rfl] at h
        cases halive : alive with
        | false => rw [halive] at h; simp [sendCW] at h
        | true =>
          rw [halive] at h ih
          simp only [sendCW, if_pos rfl] at h
          cases hrec : add_frontends_loop fs true id ((f + 1) % U16_MOD) fuel with
          | diverge => rw [hrec] at h; cases h
          | panic => rw [hrec] at h; cases h
          | ok rest =>
            rw [hrec] at h
            cases h
            intro e he
            rcases List.mem_cons.mp (by simpa using he) with he1 | he2
            · exact ⟨f, he1, hfs⟩
            · exact ih ((f + 1) % U16_MOD) rest hrec e he2
      · rw [if_neg hc] at h
        exact ih ((f + 1) % U16_MOD) evs h

/-- With the consumer alive, the enumerator loop never panics. -/
theorem add_frontends_loop_ne_panic (fs : FS) (id : Nat) :
    ∀ (fuel f : Nat), add_frontends_loop fs true id f fuel ≠ .panic := by
  intro fuel
  induction fuel with
  | zero => intro f h; simp [add_frontends_loop] at h
  | succ fuel ih =>
    intro f h
    cases hfs : fs (frontend_path ⟨id, f⟩) with
    | none => simp [add_frontends_loop, hfs] at h
    | some t =>
      simp only [add_frontends_loop, hfs] at h
      by_cases hc : t = FileKind.charDevice
      · rw [if_pos hc] at h
        simp only [sendCW, if_pos rfl] at h
        cases hrec : add_frontends_loop fs true id ((f + 1) % U16_MOD) fuel with
        | diverge => rw [hrec] at h; cases h
        | panic => exact ih ((f + 1) % U16_MOD) hrec
        | ok rest => rw [hrec] at h; cases h
      · rw [if_neg hc] at h
        exact ih ((f + 1) % U16_MOD) h

/-- With the consumer gone, an enumeration that would deliver at least
one message instead panics at its first send. -/
theorem add_frontends_loop_dead_panics (fs : FS) (id : Nat) :
    ∀ (fuel f : Nat) (evs : List Ev),
      add_frontends_loop fs true id f fuel = .ok evs → evs ≠ [] →
      add_frontends_loop fs false id f fuel = .panic := by
  intro fuel
  induction fuel with
  | zero => intro f evs h; simp [add_frontends_loop] at h
  | succ fuel ih =>
    intro f evs h hne
    cases hfs : fs (frontend_path ⟨id, f⟩) with
    | none =>
      simp only [add_frontends_loop, hfs] at h
      cases h
      exact absurd rfl hne
    | some t =>
      simp only [add_frontends_loop, hfs] at h
      by_cases hc : t = FileKind.charDevice
      · simp only [add_frontends_loop, hfs, if_pos hc, sendCW]
        simp
      · rw [if_neg hc] at h
        simp only [add_frontends_loop, hfs, if_neg hc]
        exact ih ((f + 1) % U16_MOD) evs h hne

/-- With every frontend path of the adapter present, the enumerator loop
never breaks: the `u16` counter wraps and the loop runs forever (it
exhausts any amount of fuel). -/
theorem add_frontends_loop_diverges (fs : FS) (id : Nat)
    (hall : ∀ i, i < U16_MOD → (fs (frontend_path ⟨id, i⟩)).isSome) :
    ∀ (fuel f : Nat), f < U16_MOD →
      add_frontends_loop fs true id f fuel = .diverge := by
  intro fuel
  induction fuel with
  | zero => intro f _; rfl
  | succ fuel ih =>
    intro f hf
    obtain ⟨t, ht⟩ := Option.isSome_iff_exists.mp (hall f hf)
    have hrec := ih ((f + 1) % U16_MOD) (Nat.mod_lt _ (by simp [U16_MOD]))
    by_cases hc : t = FileKind.charDevice
    · simp only [add_frontends_loop, ht, if_pos hc]
      simp [sendCW, hrec]
    · simp only [add_frontends_loop, ht, if_neg hc, hrec]

/-! ## Characterization of the startup scanner -/

/-- If the adapter paths all exist below index `n`, the one at `n` is
absent, and each adapter below `n` enumerates to `E j`, the scanner loop
started at `s ≤ n` visits exactly adapters `s .. n-1` in order. -/
theorem search_loop_spec (fs : FS) (fuelF n : Nat) (E : Nat → List Ev)
    (hn : n < U16_MOD) (habs : fs (adapter_path n) = none)
    (hE : ∀ j, j < n → add_frontends fs true j fuelF = .ok (E j)) :
    ∀ (fuel s : Nat), s ≤ n → n - s < fuel →
      (∀ j, s ≤ j → j < n → (fs (adapter_path j)).isSome) →
      search_loop fs true fuelF s fuel =
        .ok (((List.range' s (n - s)).map E).flatten) := by
  intro fuel
  induction fuel with
  | zero => intro s _ hfuel _; omega
  | succ fuel ih =>
    intro s hsn hfuel hall
    rcases Nat.lt_or_eq_of_le hsn with hlt | heq
    · obtain ⟨t, ht⟩ := Option.isSome_iff_exists.mp (hall s le_rfl hlt)
      have hmod : (s + 1) % U16_MOD = s + 1 := Nat.mod_eq_of_lt (by omega)
      have hrange : n - s = (n - (s + 1)) + 1 := by omega
      have hih := ih (s + 1) (by omega) (by omega)
        (fun j hj1 hj2 => hall j (by omega) hj2)
      rw [hrange, List.range'_succ]
      simp only [search_loop, ht, hE s hlt, hmod, hih, List.map_cons,
        List.flatten_cons]
    · subst heq
      simp [search_loop, habs, Nat.sub_self]

/-! ## Panic-freedom with a live consumer, and loop decomposition -/

theorem add_frontends_ne_panic (fs : FS) (id fuel : Nat) :
    add_frontends fs true id fuel ≠ .panic :=
  add_frontends_loop_ne_panic fs id fuel 0

theorem search_loop_ne_panic (fs : FS) (fuelF : Nat) :
    ∀ (fuel a : Nat), search_loop fs true fuelF a fuel ≠ .panic := by
  intro fuel
  induction fuel with
  | zero => intro a h; simp [search_loop] at h
  | succ fuel ih =>
    intro a h
    cases hfs : fs (adapter_path a) with
    | none => simp [search_loop, hfs] at h
    | some t =>
      simp only [search_loop, hfs] at h
      cases hadd : add_frontends fs true a fuelF with
      | diverge => rw [hadd] at h; cases h
      | panic => exact add_frontends_ne_panic fs a fuelF hadd
      | ok evs =>
        rw [hadd] at h
        cases hrec : search_loop fs true fuelF ((a + 1) % U16_MOD) fuel with
        | diverge => rw [hrec] at h; cases h
        | panic => exact ih ((a + 1) % U16_MOD) hrec
        | ok rest => rw [hrec] at h; cases h

theorem search_and_add_adaptors_ne_panic (fs : FS) (fuelF fuelA : Nat) :
    search_and_add_adaptors fs true fuelF fuelA ≠ .panic := by
  intro h
  cases hfs : fs DVB_BASE_PATH with
  | none => simp [search_and_add_adaptors, hfs] at h
  | some t =>
    simp only [search_and_add_adaptors, hfs] at h
    exact search_loop_ne_panic fs fuelF fuelA 0 h

theorem handle_message_ne_panic (fs : FS) (fuelF : Nat) (m : INMessage) :
    handle_message fs true fuelF m ≠ .panic := by
  intro h
  cases m with
  | AdapterAppeared id =>
    simp only [handle_message] at h
    cases hadd : add_frontends fs true id fuelF with
    | diverge => rw [hadd] at h; cases h
    | panic => exact add_frontends_ne_panic fs id fuelF hadd
    | ok evs => rw [hadd] at h; cases h
  | AdapterDisappeared id => simp [handle_message, sendCW] at h

theorem run_loop_ne_panic (fs : FS) (fuelF : Nat) :
    ∀ inbox : List INMessage, (run_loop fs true fuelF inbox).1 ≠ .panic := by
  intro inbox
  induction inbox with
  | nil => intro h; simp [run_loop] at h
  | cons m ms ih =>
    intro h
    cases hh : handle_message fs true fuelF m with
    | diverge => simp [run_loop, hh] at h
    | panic => exact handle_message_ne_panic fs fuelF m hh
    | ok evs =>
      simp only [run_loop, hh] at h
      cases hrec : run_loop fs true fuelF ms with
      | mk r logs =>
        cases r with
        | diverge => rw [hrec] at h; cases h
        | panic =>
          apply ih
          rw [hrec]
        | ok rest => rw [hrec] at h; cases h

theorem run_ne_panic (fs : FS) (fuelF fuelA : Nat) (inbox : List INMessage) :
    (run fs true fuelF fuelA inbox).1 ≠ .panic := by
  intro h
  cases hs : search_and_add_adaptors fs true fuelF fuelA with
  | diverge => simp [run, hs] at h
  | panic => exact search_and_add_adaptors_ne_panic fs fuelF fuelA hs
  | ok evs =>
    simp only [run, hs] at h
    cases hrec : run_loop fs true fuelF inbox with
    | mk r logs =>
      cases r with
      | diverge => rw [hrec] at h; cases h
      | panic =>
        apply run_loop_ne_panic fs fuelF inbox
        rw [hrec]
      | ok rest => rw [hrec] at h; cases h

/-- A normal completion of the receive loop on a non-empty inbox
decomposes: the head message was received and handled successfully, and
the loop then completed on the tail.  In particular the loop's only exit
is reaching the end of the inbox (the channel disconnect). -/
theorem run_loop_cons_ok (fs : FS) (alive : Bool) (fuelF : Nat)
    (m : INMessage) (ms : List INMessage) (evs : List Ev) (logs : List String)
    (h : run_loop fs alive fuelF (m :: ms) = (.ok evs, logs)) :
    ∃ e1 e2, handle_message fs alive fuelF m = .ok e1 ∧
      run_loop fs alive fuelF ms = (.ok e2, logs) ∧
      evs = Ev.recv m :: (e1 ++ e2) := by
  cases hh : handle_message fs alive fuelF m with
  | diverge => simp [run_loop, hh] at h
  | panic => simp [run_loop, hh] at h
  | ok e1 =>
    simp only [run_loop, hh] at h
    cases hrec : run_loop fs alive fuelF ms with
    | mk r logs2 =>
      cases r with
      | diverge => rw [hrec] at h; cases h
      | panic => rw [hrec] at h; cases h
      | ok e2 =>
        rw [hrec] at h
        injection h with h1 h2
        injection h1 with h3
        subst h2
        exact ⟨e1, e2, rfl, rfl, h3.symm⟩

/-! ## Witness fixtures -/

/-- A concrete filesystem: base directory present, adapter 0 present with
exactly two character-device frontends, nothing else. -/
def fsTwo : FS := fun p =>
  if p = DVB_BASE_PATH then some .directory
  else if p = adapter_path 0 then some .directory
  else if p = frontend_path ⟨0, 0⟩ then some .charDevice
  else if p = frontend_path ⟨0, 1⟩ then some .charDevice
  else none

/-- A concrete filesystem where adapter 5 has a character device at
frontend 0, a wrong-type entry at frontend 1, a character device at
frontend 2, and nothing at frontend 3. -/
def fsSkip : FS := fun p =>
  if p = frontend_path ⟨5, 0⟩ then some .charDevice
  else if p = frontend_path ⟨5, 1⟩ then some .other
  else if p = frontend_path ⟨5, 2⟩ then some .charDevice
  else none

/-! ## Claim theorems -/

/-- C1: if the frontend paths of adapter `id` are character devices at
every index below `k` and the path at `k` is absent, `add_frontends`
delivers exactly `k` `FrontendAppeared` messages, one per index
`0 .. k-1` in strictly increasing index order, and nothing for any index
`≥ k` no matter what the filesystem holds above `k`; moreover, in any
run, every `FrontendAppeared` it delivers is for that adapter and for a
path that exists as a character-special device file. -/
theorem C1_enumerator_exact_events (fs : FS) (id k fuel : Nat)
    (hk : k < U16_MOD) (hfuel : k < fuel)
    (hpresent : ∀ i, i < k → fs (frontend_path ⟨id, i⟩) = some FileKind.charDevice)
    (habs : fs (frontend_path ⟨id, k⟩) = none) :
    add_frontends fs true id fuel =
      .ok ((List.range k).map (fun i => Ev.send (.FrontendAppeared ⟨id, i⟩))) ∧
    (∀ (fs' : FS) (id' fuel' : Nat) (evs : List Ev) (fei : FrontendId),
      add_frontends fs' true id' fuel' = .ok evs →
      Ev.send (.FrontendAppeared fei) ∈ evs →
      fei.adapter = id' ∧ fs' (frontend_path fei) = some FileKind.charDevice) := by
  constructor
  · have hspec := add_frontends_loop_spec fs id k hk habs fuel 0 (Nat.zero_le k)
      (by omega) (fun i _ hi => by rw [hpresent i hi]; rfl)
    have hfilter : (List.range' 0 (k - 0)).filter
        (fun i => decide (fs (frontend_path ⟨id, i⟩) = some FileKind.charDevice)) =
        List.range k := by
      rw [Nat.sub_zero, ← List.range_eq_range']
      exact List.filter_eq_self.mpr
        (fun a ha => by simp [hpresent a (List.mem_range.mp ha)])
    rw [add_frontends, hspec, hfilter]
  · intro fs' id' fuel' evs fei hok hmem
    obtain ⟨g, hg, hchar⟩ :=
      add_frontends_loop_char_only fs' true id' fuel' 0 evs hok _ hmem
    have hfei : fei = ⟨id', g⟩ := by
      injection hg with h1
      injection h1
    subst hfei
    exact ⟨rfl, hchar⟩

/-- C1 witness: on `fsTwo`, adapter 0 yields exactly the two frontends. -/
theorem C1_witness :
    add_frontends fsTwo true 0 3 =
      .ok [Ev.send (.FrontendAppeared ⟨0, 0⟩), Ev.send (.FrontendAppeared ⟨0, 1⟩)] :=
  (C1_enumerator_exact_events fsTwo 0 2 3 (by decide) (by decide)
    (by decide) (by decide)).1

/-- C2: a present path of the wrong file type at index `i < k` produces
no message for `i` but does not stop the scan: every character-device
index in `i+1 .. k-1` is still delivered. -/
theorem C2_wrong_type_skipped (fs : FS) (id i k fuel : Nat) (t : FileKind)
    (hik : i < k) (hk : k < U16_MOD) (hfuel : k < fuel)
    (hwrong : fs (frontend_path ⟨id, i⟩) = some t)
    (htype : t ≠ FileKind.charDevice)
    (hothers : ∀ j, j < k → j ≠ i →
      fs (frontend_path ⟨id, j⟩) = some FileKind.charDevice)
    (habs : fs (frontend_path ⟨id, k⟩) = none) :
    ∃ evs, add_frontends fs true id fuel = .ok evs ∧
      Ev.send (.FrontendAppeared ⟨id, i⟩) ∉ evs ∧
      (∀ j, i < j → j < k → Ev.send (.FrontendAppeared ⟨id, j⟩) ∈ evs) := by
  have hspec := add_frontends_loop_spec fs id k hk habs fuel 0 (Nat.zero_le k)
    (by omega)
    (fun j _ hj => by
      by_cases hji : j = i
      · subst hji; rw [hwrong]; rfl
      · rw [hothers j hj hji]; rfl)
  have hspec' : add_frontends fs true id fuel =
      .ok (((List.range k).filter
          (fun j => decide (fs (frontend_path ⟨id, j⟩) = some FileKind.charDevice))).map
        (fun j => Ev.send (.FrontendAppeared ⟨id, j⟩))) := by
    rw [add_frontends, hspec, Nat.sub_zero, ← List.range_eq_range']
  refine ⟨_, hspec', ?_, ?_⟩
  · intro hmem
    rw [List.mem_map] at hmem
    obtain ⟨a, hafilter, haeq⟩ := hmem
    simp only [Ev.send.injEq, Message.FrontendAppeared.injEq,
      FrontendId.mk.injEq] at haeq
    rw [haeq.2] at hafilter
    have := (List.mem_filter.mp hafilter).2
    rw [hwrong] at this
    simp at this
    exact htype this
  · intro j hij hjk
    rw [List.mem_map]
    refine ⟨j, List.mem_filter.mpr ⟨List.mem_range.mpr hjk, ?_⟩, rfl⟩
    simp [hothers j hjk (by omega)]

/-- C2 witness: on `fsSkip`, the wrong-type frontend 1 of adapter 5 is
skipped while frontend 2 is still delivered. -/
theorem C2_witness :
    ∃ evs, add_frontends fsSkip true 5 5 = .ok evs ∧
      Ev.send (.FrontendAppeared ⟨5, 1⟩) ∉ evs ∧
      (∀ j, 1 < j → j < 3 → Ev.send (.FrontendAppeared ⟨5, j⟩) ∈ evs) :=
  C2_wrong_type_skipped fsSkip 5 1 3 5 FileKind.other (by decide) (by decide)
    (by decide) (by decide) (by decide) (by decide) (by decide)

/-- C3: on startup, when the base directory exists, the scanner invokes
the enumerator for every adapter index from 0 up to the first missing
one, and adapters past that gap contribute nothing; when the base
directory is absent the scanner sends nothing; and `run` performs the
scan before the receive loop, so every startup event precedes every
hotplug-derived event in the outbound order. -/
theorem C3_startup_scan (fs : FS) (n fuelF fuelA : Nat) (E : Nat → List Ev)
    (hbase : (fs DVB_BASE_PATH).isSome)
    (hn : n < U16_MOD) (hfuelA : n < fuelA)
    (hexists : ∀ j, j < n → (fs (adapter_path j)).isSome)
    (habs : fs (adapter_path n) = none)
    (hE : ∀ j, j < n → add_frontends fs true j fuelF = .ok (E j)) :
    search_and_add_adaptors fs true fuelF fuelA =
      .ok (((List.range n).map E).flatten) ∧
    (∀ fs' : FS, fs' DVB_BASE_PATH = none →
      ∀ fF fA, search_and_add_adaptors fs' true fF fA = .ok []) ∧
    (∀ (inbox : List INMessage) (rest : List Ev) (logs : List String),
      run_loop fs true fuelF inbox = (.ok rest, logs) →
      run fs true fuelF fuelA inbox =
        (.ok (((List.range n).map E).flatten ++ rest), logs ++ [TERM_LOG])) := by
  have hloop := search_loop_spec fs fuelF n E hn habs hE fuelA 0 (Nat.zero_le n)
    (by omega) (fun j _ hj => hexists j hj)
  obtain ⟨b, hb⟩ := Option.isSome_iff_exists.mp hbase
  have hscan : search_and_add_adaptors fs true fuelF fuelA =
      .ok (((List.range n).map E).flatten) := by
    rw [search_and_add_adaptors]
    rw [hb, hloop, Nat.sub_zero, ← List.range_eq_range']
  refine ⟨hscan, ?_, ?_⟩
  · intro fs' h0 fF fA
    simp [search_and_add_adaptors, h0]
  · intro inbox rest logs hrl
    simp only [run, hscan, hrl]

/-- C3 witness: startup on `fsTwo` (adapter 0 present, adapter 1 absent)
followed by an immediately closed channel reports exactly adapter 0's
two frontends, then terminates. -/
theorem C3_witness :
    run fsTwo true 3 2 [] =
      (.ok [Ev.send (.FrontendAppeared ⟨0, 0⟩), Ev.send (.FrontendAppeared ⟨0, 1⟩)],
        [DROP_LOG, TERM_LOG]) := by
  have h := (C3_startup_scan fsTwo 1 3 2
    (fun _ => [Ev.send (.FrontendAppeared ⟨0, 0⟩), Ev.send (.FrontendAppeared ⟨0, 1⟩)])
    (by decide) (by decide) (by decide) (by decide) (by decide)
    (by decide)).2.2 [] [] [DROP_LOG] rfl
  simpa using h

/-- C4: an inbound `AdapterDisappeared{id}` is handled by sending exactly
one outbound `AdapterDisappeared` with the same id and nothing else, and
the handling is independent of the filesystem (no filesystem access, no
re-validation) and of the enumeration fuel. -/
theorem C4_adapter_disappeared_forward :
    (∀ (fs : FS) (fuelF id : Nat),
      handle_message fs true fuelF (.AdapterDisappeared id) =
        .ok [Ev.send (.AdapterDisappeared id)]) ∧
    (∀ (fs fs' : FS) (alive : Bool) (fuelF fuelF' id : Nat),
      handle_message fs alive fuelF (.AdapterDisappeared id) =
        handle_message fs' alive fuelF' (.AdapterDisappeared id)) :=
  ⟨fun _ _ _ => rfl, fun _ _ _ _ _ _ => rfl⟩

/-- C5: the three frontend-relative resolver functions produce exactly
the base path followed by `/adapter`, the decimal adapter id, the
component name and the decimal frontend id, for all 16-bit ids.  The
Lean embeddings are total pure functions by construction, matching the
absence of errors and side effects in the source. -/
theorem C5_path_resolver_strings (a f : Nat)
    (_ha : a < U16_MOD) (_hf : f < U16_MOD) :
    frontend_path ⟨a, f⟩ =
      DVB_BASE_PATH ++ "/adapter" ++ Nat.repr a ++ "/frontend" ++ Nat.repr f ∧
    demux_path ⟨a, f⟩ =
      DVB_BASE_PATH ++ "/adapter" ++ Nat.repr a ++ "/demux" ++ Nat.repr f ∧
    dvr_path ⟨a, f⟩ =
      DVB_BASE_PATH ++ "/adapter" ++ Nat.repr a ++ "/dvr" ++ Nat.repr f :=
  ⟨rfl, rfl, rfl⟩

/-- C5 witness at adapter 3, frontend 7. -/
theorem C5_witness :
    (3 : Nat) < U16_MOD ∧ (7 : Nat) < U16_MOD ∧
    frontend_path ⟨3, 7⟩ =
      DVB_BASE_PATH ++ "/adapter" ++ Nat.repr 3 ++ "/frontend" ++ Nat.repr 7 :=
  ⟨by decide, by decide, (C5_path_resolver_strings 3 7 (by decide) (by decide)).1⟩

/-- C6: each path resolver is injective in its id argument for the fixed
base path: equal adapter paths force equal adapter ids, and equal
frontend / demux / dvr paths force equal id pairs, over all 16-bit ids. -/
theorem C6_resolvers_injective :
    (∀ a1 a2 : Nat, a1 < U16_MOD → a2 < U16_MOD →
      adapter_path a1 = adapter_path a2 → a1 = a2) ∧
    (∀ x y : FrontendId, x.adapter < U16_MOD → x.frontend < U16_MOD →
      y.adapter < U16_MOD → y.frontend < U16_MOD →
      frontend_path x = frontend_path y → x = y) ∧
    (∀ x y : FrontendId, x.adapter < U16_MOD → x.frontend < U16_MOD →
      y.adapter < U16_MOD → y.frontend < U16_MOD →
      demux_path x = demux_path y → x = y) ∧
    (∀ x y : FrontendId, x.adapter < U16_MOD → x.frontend < U16_MOD →
      y.adapter < U16_MOD → y.frontend < U16_MOD →
      dvr_path x = dvr_path y → x = y) :=
  ⟨fun _ _ _ _ h => adapter_path_injective h,
   fun _ _ _ _ _ _ h => frontend_path_injective h,
   fun _ _ _ _ _ _ h => demux_path_injective h,
   fun _ _ _ _ _ _ h => dvr_path_injective h⟩

/-- C6 witness at concrete ids. -/
theorem C6_witness : FrontendId.mk 2 9 = FrontendId.mk 2 9 :=
  C6_resolvers_injective.2.1 ⟨2, 9⟩ ⟨2, 9⟩ (by decide) (by decide)
    (by decide) (by decide) rfl

/-- C7: when the inbound channel is exhausted (its sender dropped), the
receive loop returns normally with the disconnect log line and `run`
completes with the termination log line, without a panic; and the loop
can only complete normally by handling every inbound message and then
reaching the disconnect, so the disconnect is the sole exit of the
loop. -/
theorem C7_disconnect_clean_exit :
    (∀ (fs : FS) (alive : Bool) (fuelF : Nat),
      run_loop fs alive fuelF [] = (.ok [], [DROP_LOG])) ∧
    (∀ (fs : FS) (alive : Bool) (fuelF fuelA : Nat) (scanEvs : List Ev),
      search_and_add_adaptors fs alive fuelF fuelA = .ok scanEvs →
      run fs alive fuelF fuelA [] = (.ok scanEvs, [DROP_LOG, TERM_LOG])) ∧
    (∀ (fs : FS) (alive : Bool) (fuelF : Nat) (m : INMessage)
        (ms : List INMessage) (evs : List Ev) (logs : List String),
      run_loop fs alive fuelF (m :: ms) = (.ok evs, logs) →
      ∃ e1 e2, handle_message fs alive fuelF m = .ok e1 ∧
        run_loop fs alive fuelF ms = (.ok e2, logs) ∧
        evs = Ev.recv m :: (e1 ++ e2)) := by
  refine ⟨fun _ _ _ => rfl, ?_, run_loop_cons_ok⟩
  intro fs alive fuelF fuelA scanEvs hscan
  simp [run, hscan, run_loop, DROP_LOG, TERM_LOG]

/-- C7 witness: an empty filesystem and an immediately closed inbound
channel give a clean, logged exit. -/
theorem C7_witness :
    run (fun _ => none) true 3 3 [] = (.ok [], [DROP_LOG, TERM_LOG]) :=
  C7_disconnect_clean_exit.2.1 (fun _ => none) true 3 3 [] rfl

/-- C8: a failed downstream send (consumer gone) panics the worker: any
enumeration that would deliver at least one message panics instead, and
the `AdapterDisappeared` forward panics; conversely, with the consumer
alive no panic arises anywhere in the core's message handling. -/
theorem C8_send_failure_fatal :
    (∀ (fs : FS) (id fuel : Nat) (evs : List Ev),
      add_frontends fs true id fuel = .ok evs → evs ≠ [] →
      add_frontends fs false id fuel = .panic) ∧
    (∀ (fs : FS) (fuelF id : Nat),
      handle_message fs false fuelF (.AdapterDisappeared id) = .panic) ∧
    (∀ (fs : FS) (id fuel : Nat), add_frontends fs true id fuel ≠ .panic) ∧
    (∀ (fs : FS) (fuelF : Nat) (m : INMessage),
      handle_message fs true fuelF m ≠ .panic) ∧
    (∀ (fs : FS) (fuelF fuelA : Nat) (inbox : List INMessage),
      (run fs true fuelF fuelA inbox).1 ≠ .panic) :=
  ⟨fun fs id fuel evs h hne => add_frontends_loop_dead_panics fs id fuel 0 evs h hne,
   fun _ _ _ => rfl,
   add_frontends_ne_panic, handle_message_ne_panic, run_ne_panic⟩

/-- C8 witness: with the consumer gone, enumerating `fsTwo`'s adapter 0
panics, as does forwarding a disappearance. -/
theorem C8_witness :
    add_frontends fsTwo false 0 3 = .panic ∧
    handle_message fsTwo false 3 (.AdapterDisappeared 3) = .panic :=
  ⟨C8_send_failure_fatal.1 fsTwo 0 3
      [Ev.send (.FrontendAppeared ⟨0, 0⟩), Ev.send (.FrontendAppeared ⟨0, 1⟩)]
      (by decide) (by decide),
   C8_send_failure_fatal.2.1 fsTwo 3 3⟩

/-- C9: handling an inbound `AdapterAppeared{id}` sleeps for the fixed
one-second settle delay before enumerating, so every resulting
`FrontendAppeared` send occurs after the delay; and in the receive loop
the whole handling — delay and sends — happens between the receive of
that message and the receive of the next one, so bursts are serialized,
not dropped. -/
theorem C9_settle_delay (fs : FS) (alive : Bool) (fuelF id : Nat) :
    (∀ evs : List Ev,
      handle_message fs alive fuelF (.AdapterAppeared id) = .ok evs →
      ∃ rest, evs = Ev.sleep 1 :: rest ∧
        add_frontends fs alive id fuelF = .ok rest ∧
        ∀ e ∈ rest, ∃ msg, e = Ev.send msg) ∧
    (∀ (ms : List INMessage) (evs : List Ev) (logs : List String),
      run_loop fs alive fuelF (.AdapterAppeared id :: ms) = (.ok evs, logs) →
      ∃ enumEvs restEvs, add_frontends fs alive id fuelF = .ok enumEvs ∧
        run_loop fs alive fuelF ms = (.ok restEvs, logs) ∧
        evs = Ev.recv (.AdapterAppeared id) :: Ev.sleep 1 ::
          (enumEvs ++ restEvs)) := by
  constructor
  · intro evs h
    cases hadd : add_frontends fs alive id fuelF with
    | diverge => simp [handle_message, hadd] at h
    | panic => simp [handle_message, hadd] at h
    | ok rest =>
      simp only [handle_message, hadd] at h
      injection h with h1
      refine ⟨rest, h1.symm, rfl, ?_⟩
      intro e he
      obtain ⟨g, hg, _⟩ :=
        add_frontends_loop_char_only fs alive id fuelF 0 rest hadd e he
      exact ⟨_, hg⟩
  · intro ms evs logs h
    obtain ⟨e1, e2, hh, hms, heq⟩ := run_loop_cons_ok fs alive fuelF _ ms evs logs h
    cases hadd : add_frontends fs alive id fuelF with
    | diverge => simp [handle_message, hadd] at hh
    | panic => simp [handle_message, hadd] at hh
    | ok rest =>
      simp only [handle_message, hadd] at hh
      injection hh with h1
      refine ⟨rest, e2, rfl, hms, ?_⟩
      rw [heq, ← h1]
      simp

/-- C9 witness: one hotplug appearance on `fsTwo` sleeps, then sends the
two frontends, before the next (absent) receive. -/
theorem C9_witness :
    ∃ enumEvs restEvs, add_frontends fsTwo true 0 3 = .ok enumEvs ∧
      run_loop fsTwo true 3 [] = (.ok restEvs, [DROP_LOG]) ∧
      [Ev.recv (.AdapterAppeared 0), Ev.sleep 1,
        Ev.send (.FrontendAppeared ⟨0, 0⟩), Ev.send (.FrontendAppeared ⟨0, 1⟩)] =
        Ev.recv (.AdapterAppeared 0) :: Ev.sleep 1 :: (enumEvs ++ restEvs) :=
  (C9_settle_delay fsTwo true 3 0).2 [] _ [DROP_LOG] (by decide)

/-- C10: the enumerator loop terminates for every filesystem in which
some frontend index of the adapter below `2^16` has an absent path — it
breaks at the first absent index before the `u16` counter can overflow;
with every one of the 65536 indices present, the counter wraps past
65535 and the loop never terminates (it exhausts any fuel). -/
theorem C10_loop_termination (fs : FS) (id : Nat) :
    ((∃ i, i < U16_MOD ∧ fs (frontend_path ⟨id, i⟩) = none) →
      ∃ fuel evs, add_frontends fs true id fuel = .ok evs) ∧
    ((∀ i, i < U16_MOD → (fs (frontend_path ⟨id, i⟩)).isSome) →
      ∀ fuel, add_frontends fs true id fuel = .diverge) := by
  constructor
  · rintro ⟨i, hi, hiabs⟩
    have hex : ∃ n, fs (frontend_path ⟨id, n⟩) = none := ⟨i, hiabs⟩
    have hkP := Nat.find_spec hex
    have hki : Nat.find hex ≤ i := Nat.find_min' hex hiabs
    have hsome : ∀ j, 0 ≤ j → j < Nat.find hex →
        (fs (frontend_path ⟨id, j⟩)).isSome := by
      intro j _ hj
      exact Option.ne_none_iff_isSome.mp (Nat.find_min hex hj)
    exact ⟨Nat.find hex + 1, _,
      add_frontends_loop_spec fs id (Nat.find hex) (by omega) hkP
        (Nat.find hex + 1) 0 (Nat.zero_le _) (by omega) hsome⟩
  · intro hall fuel
    exact add_frontends_loop_diverges fs id hall fuel 0 (by decide)

/-- C10 witness: with no paths present the loop terminates at once; with
every path a character device it exhausts any fuel. -/
theorem C10_witness :
    (∃ fuel evs, add_frontends (fun _ => none) true 0 fuel = .ok evs) ∧
    add_frontends (fun _ => some FileKind.charDevice) true 0 5 = .diverge :=
  ⟨(C10_loop_termination (fun _ => none) 0).1 ⟨0, by decide, rfl⟩,
   (C10_loop_termination (fun _ => some FileKind.charDevice) 0).2
    (fun _ _ => rfl) 5⟩

end MeTV
